import Mathlib

/-!
Verification of the chat/conversation persistence layer of this repository.

The development shallowly embeds the server-side persistence functions:

* `PgData` models `app/lib/persistence/pg.data.server.ts` (tables `chats`,
  `messages`, `snapshots`; operations `getChatDetails`, `saveChatMessages`,
  `deleteChatById`, `duplicateChat`, `forkChat`) under single-connection,
  statements-in-program-order semantics.  Error paths that the source reaches
  before its first write are modelled as `Except.error` with the database
  unchanged.
* `PgPool` models the actual dispatch of `app/lib/db.server.ts`: every call to
  `query` is routed to some pooled connection, and `BEGIN`/`COMMIT`/`ROLLBACK`
  only affect the connection they happen to run on.  A statement executed on a
  connection that is not inside an explicit transaction is autocommitted.
* `UserDb` models `app/lib/.server/db/user.server.ts` (`createUser`).
* `ConvDb` models the conversation half of
  `app/lib/.server/db/conversation.server.ts` (`getConversationById`,
  `updateConversationEmbedding`).
* `ProjectDb` models the project half of the same file (`updateProject`,
  `getProjectById`).
* `SimSearch` models `my-remix-app/app/models/conversation.server.ts`
  (`findSimilarConversations`); the pgvector cosine-distance operator is an
  external database primitive, so it is taken as an arbitrary function
  argument `dist`.

Numeric ids are `Nat` (the schema uses `SERIAL`, surfaced as JS numbers by the
driver, so a JS-falsy id is exactly `0`); user ids are `String` (JS-falsy is
`""`).  Embedding vectors are `List Rat`.  JSON blobs that the code never
inspects (chat metadata, snapshot data, project code content) are opaque
`String`s.  Error messages interpolate ids in the source; the model keeps the
constant prefix of each message.
-/

namespace PgData

/-- A row of the `chats` table (`setup_db.sql`). -/
structure ChatRow where
  id : Nat
  user_id : String
  description : Option String
  metadata : Option String
  created_at : Nat
  updated_at : Nat
deriving Repr, DecidableEq

/-- A row of the `messages` table. -/
structure MessageRow where
  id : Nat
  chat_id : Nat
  role : String
  content : String
  embedding : Option (List Rat)
  created_at : Nat
deriving Repr, DecidableEq

/-- A row of the `snapshots` table. -/
structure SnapshotRow where
  id : Nat
  chat_id : Nat
  snapshot_data : String
  created_at : Nat
deriving Repr, DecidableEq

/-- The visible database state: the three tables, the three `SERIAL`
sequences, and the clock supplying `CURRENT_TIMESTAMP`. -/
structure Db where
  chats : List ChatRow
  messages : List MessageRow
  snapshots : List SnapshotRow
  nextChatId : Nat
  nextMsgId : Nat
  nextSnapId : Nat
  now : Nat
deriving Repr, DecidableEq

/-- Embeds `INSERT INTO chats (user_id, description, metadata) ... RETURNING id`. -/
def Db.insertChat (db : Db) (uid : String) (desc meta : Option String) : Nat × Db :=
  (db.nextChatId,
    { db with
      chats := db.chats ++ [⟨db.nextChatId, uid, desc, meta, db.now, db.now⟩]
      nextChatId := db.nextChatId + 1 })

/-- Embeds `INSERT INTO messages (chat_id, role, content, embedding, created_at)`. -/
def Db.insertMessage (db : Db) (cid : Nat) (role content : String)
    (emb : Option (List Rat)) (ts : Nat) : Db :=
  { db with
    messages := db.messages ++ [⟨db.nextMsgId, cid, role, content, emb, ts⟩]
    nextMsgId := db.nextMsgId + 1 }

/-- Embeds `INSERT INTO snapshots (chat_id, snapshot_data, created_at)` with
`CURRENT_TIMESTAMP` as the created_at value. -/
def Db.insertSnapshot (db : Db) (cid : Nat) (data : String) : Db :=
  { db with
    snapshots := db.snapshots ++ [⟨db.nextSnapId, cid, data, db.now⟩]
    nextSnapId := db.nextSnapId + 1 }

/-- Stable insertion of a message into a list that is already ordered by
ascending `created_at`. -/
def insertByCreated (m : MessageRow) : List MessageRow → List MessageRow
  | [] => [m]
  | x :: xs =>
    if m.created_at ≤ x.created_at then m :: x :: xs else x :: insertByCreated m xs

/-- Embeds `ORDER BY created_at ASC` as a stable insertion sort. -/
def sortByCreated : List MessageRow → List MessageRow
  | [] => []
  | x :: xs => insertByCreated x (sortByCreated xs)

/-- The shape of a message row as fetched by `getChatDetails`: the source
selects `id, chat_id, role, content, created_at` and omits `embedding`. -/
structure FetchedMsg where
  id : Nat
  chat_id : Nat
  role : String
  content : String
  created_at : Nat
deriving Repr, DecidableEq

/-- The shape of a chat as fetched by `getChatDetails`: the source selects
`id, user_id, description, created_at, updated_at` and omits `metadata`
(the metadata fetch is commented out in the source). -/
structure FetchedChat where
  id : Nat
  user_id : String
  description : Option String
  created_at : Nat
  updated_at : Nat
  messages : List FetchedMsg
deriving Repr, DecidableEq

/-- The message query of `getChatDetails`:
`SELECT id, chat_id, role, content, created_at FROM messages WHERE chat_id = $1
ORDER BY created_at ASC`. -/
def fetchMsgs (db : Db) (cid : Nat) : List FetchedMsg :=
  (sortByCreated (db.messages.filter (fun m => m.chat_id == cid))).map
    (fun m => ⟨m.id, m.chat_id, m.role, m.content, m.created_at⟩)

/-- Embeds `getChatDetails(chatId, userId)`: validation error when an id is JS-falsy,
`null` when no chat row matches `id = $1 AND user_id = $2`, otherwise the chat
with its messages. -/
def getChatDetails (db : Db) (cid : Nat) (uid : String) :
    Except String (Option FetchedChat) :=
  if uid = "" ∨ cid = 0 then Except.error "Failed to fetch chat details."
  else
    match db.chats.find? (fun c => c.id == cid && c.user_id == uid) with
    | none => Except.ok none
    | some c =>
      Except.ok (some ⟨c.id, c.user_id, c.description, c.created_at, c.updated_at,
        fetchMsgs db cid⟩)

/-- Embeds `ORDER BY created_at DESC LIMIT 1` over a snapshot selection. -/
def latestSnapshot : List SnapshotRow → Option SnapshotRow
  | [] => none
  | s :: rest =>
    match latestSnapshot rest with
    | none => some s
    | some t => if s.created_at < t.created_at then some t else some s

/-- Embeds `getSnapshot(chatId, userId)`: throws on JS-falsy ids, returns `null` when
the ownership check `SELECT id FROM chats WHERE id = $1 AND user_id = $2` finds
nothing, otherwise the latest snapshot for the chat (or `null`). -/
def getSnapshot (db : Db) (cid : Nat) (uid : String) :
    Except String (Option SnapshotRow) :=
  if uid = "" ∨ cid = 0 then Except.error "Chat ID and User ID are required."
  else if db.chats.any (fun c => c.id == cid && c.user_id == uid) then
    Except.ok (latestSnapshot (db.snapshots.filter (fun s => s.chat_id == cid)))
  else
    Except.ok none

/-- Embeds `deleteChatById(chatId, userId)`: `DELETE FROM chats WHERE id = $1 AND
user_id = $2`; dependent `messages` and `snapshots` rows are removed by the
schema `ON DELETE CASCADE`.  A zero row count is silently ignored. -/
def deleteChatById (db : Db) (cid : Nat) (uid : String) : Except String Db :=
  if uid = "" ∨ cid = 0 then Except.error "Failed to delete chat."
  else if db.chats.any (fun c => c.id == cid && c.user_id == uid) then
    Except.ok
      { db with
        chats := db.chats.filter (fun c => !(c.id == cid && c.user_id == uid))
        messages := db.messages.filter (fun m => !(m.chat_id == cid))
        snapshots := db.snapshots.filter (fun s => !(s.chat_id == cid)) }
  else
    Except.ok db

/-- A message as passed into `saveChatMessages`
(the Omit of Message dropping id, chat_id and created_at). -/
structure MsgInput where
  role : String
  content : String
  embedding : Option (List Rat)
deriving Repr, DecidableEq

/-- The chat-table update of `saveChatMessages` when a chat id is supplied:
set the supplied description/metadata (if any) and `updated_at`, on the row
matching `id = $1 AND user_id = $2`.  The row count is not inspected. -/
def touchOrUpdateChat (db : Db) (cid : Nat) (uid : String)
    (desc meta : Option String) : Db :=
  { db with
    chats := db.chats.map (fun c =>
      if c.id == cid && c.user_id == uid then
        let c1 := match desc with
          | some d => { c with description := some d }
          | none => c
        let c2 := match meta with
          | some m => { c1 with metadata := some m }
          | none => c1
        { c2 with updated_at := db.now }
      else c) }

/-- The message-insert loop of `saveChatMessages`.  Each
`INSERT INTO messages (chat_id, role, content, embedding)` is subject to the
schema foreign-key constraint: it fails when no `chats` row with the target
id exists. -/
def insertMsgsFK (cid : Nat) : List MsgInput → Db → Except String Db
  | [], db => Except.ok db
  | m :: rest, db =>
    if db.chats.any (fun c => c.id == cid) then
      insertMsgsFK cid rest (db.insertMessage cid m.role m.content m.embedding db.now)
    else
      Except.error "foreign key violation on messages.chat_id"

/-- Embeds `saveChatMessages(userId, messages, chatId?, description?, metadata?)`.
With no (or a JS-falsy) chat id a new chat is inserted; otherwise the existing
chat row scoped to `id AND user_id` is touched — without checking that any row
matched — and the messages are inserted for the given chat id. -/
def saveChatMessages (db : Db) (uid : String) (msgs : List MsgInput)
    (chatId : Option Nat) (desc meta : Option String) :
    Except String (Nat × Db) :=
  if uid = "" then Except.error "Failed to save chat messages."
  else if msgs.isEmpty then Except.error "Failed to save chat messages."
  else if chatId.getD 0 = 0 then
    let (newId, db1) := db.insertChat uid desc meta
    match insertMsgsFK newId msgs db1 with
    | Except.error _ => Except.error "Failed to save chat messages."
    | Except.ok db2 => Except.ok (newId, db2)
  else
    let cid := chatId.getD 0
    let db1 := touchOrUpdateChat db cid uid desc meta
    match insertMsgsFK cid msgs db1 with
    | Except.error _ => Except.error "Failed to save chat messages."
    | Except.ok db2 => Except.ok (cid, db2)

/-- The message-copy loop shared by `duplicateChat` and `forkChat`: each fetched
message is re-inserted for the new chat with its role, content and created_at;
the embedding parameter is `message.embedding ? ... : null`, which is always
`null` because `getChatDetails` does not select the `embedding` column. -/
def insertCopies (newId : Nat) (msgs : List FetchedMsg) (db : Db) : Db :=
  msgs.foldl (fun d m => d.insertMessage newId m.role m.content none m.created_at) db

/-- Embeds `duplicateChat(originalChatId, userId)` under single-connection
transactional semantics: fetch the chat, insert the copy (description
`"Copy of " + original` or `"Copied Chat"`, metadata taken from the fetched
chat object, which carries none), copy the messages, copy the latest snapshot.
Every error surfaces as the wrapped `Failed to duplicate chat` error. -/
def duplicateChat (db : Db) (cid : Nat) (uid : String) :
    Except String (Nat × Db) :=
  if uid = "" ∨ cid = 0 then
    Except.error "Original Chat ID and User ID are required."
  else
    match getChatDetails db cid uid with
    | Except.error _ => Except.error "Failed to duplicate chat."
    | Except.ok none => Except.error "Failed to duplicate chat."
    | Except.ok (some chat) =>
      let newDesc := match chat.description with
        | some d => "Copy of " ++ d
        | none => "Copied Chat"
      let (newId, db1) := db.insertChat uid (some newDesc) none
      let db2 := insertCopies newId chat.messages db1
      match getSnapshot db2 cid uid with
      | Except.error _ => Except.error "Failed to duplicate chat."
      | Except.ok none => Except.ok (newId, db2)
      | Except.ok (some s) => Except.ok (newId, db2.insertSnapshot newId s.snapshot_data)

/-- The description given to a forked chat. -/
def forkDesc (chat : FetchedChat) (mId : Nat) : String :=
  match chat.description with
  | some d => "Fork of " ++ d ++ " (up to message " ++ toString mId ++ ")"
  | none => "Forked Chat (up to message " ++ toString mId ++ ")"

/-- The tail of `forkChat` after the fork index has been found: insert the new
chat row, copy the message prefix, copy the latest snapshot. -/
def forkFinish (db : Db) (cid mId forkIdx : Nat) (uid : String)
    (chat : FetchedChat) : Except String (Nat × Db) :=
  let newId := (db.insertChat uid (some (forkDesc chat mId)) none).1
  let db1 := (db.insertChat uid (some (forkDesc chat mId)) none).2
  let db2 := insertCopies newId (chat.messages.take (forkIdx + 1)) db1
  match getSnapshot db2 cid uid with
  | Except.error _ => Except.error "Failed to fork chat."
  | Except.ok none => Except.ok (newId, db2)
  | Except.ok (some s) => Except.ok (newId, db2.insertSnapshot newId s.snapshot_data)

/-- Embeds `forkChat(originalChatId, messageIdToForkAt, userId)`: like `duplicateChat`
but only messages up to and including the first one whose id equals
`messageIdToForkAt` (by `findIndex` over the fetched ordering) are copied; a
missing fork point, or a chat with no messages, is an error.  Every error
thrown inside the try block surfaces as the wrapped `Failed to fork chat`
error. -/
def forkChat (db : Db) (cid : Nat) (mId : Nat) (uid : String) :
    Except String (Nat × Db) :=
  if uid = "" ∨ cid = 0 ∨ mId = 0 then
    Except.error "Original Chat ID, Message ID to fork at, and User ID are required."
  else
    match getChatDetails db cid uid with
    | Except.error _ => Except.error "Failed to fork chat."
    | Except.ok none => Except.error "Failed to fork chat."
    | Except.ok (some chat) =>
      if chat.messages.isEmpty then Except.error "Failed to fork chat."
      else
        match chat.messages.findIdx? (fun m => m.id == mId) with
        | none => Except.error "Failed to fork chat."
        | some forkIdx => forkFinish db cid mId forkIdx uid chat

/-- The observable data of a stored message row, with the row id (a sequence
artefact) projected away: chat id, role, content, embedding, created_at. -/
def msgData (m : MessageRow) : Nat × String × String × Option (List Rat) × Nat :=
  (m.chat_id, m.role, m.content, m.embedding, m.created_at)

/-- The data the copy loop writes for one fetched message. -/
def copyData (newId : Nat) (m : FetchedMsg) :
    Nat × String × String × Option (List Rat) × Nat :=
  (newId, m.role, m.content, none, m.created_at)

/-- A one-chat database owned by `alice`, used as concrete input below. -/
def dbC10 : Db :=
  { chats := [⟨1, "alice", none, none, 0, 0⟩]
    messages := []
    snapshots := []
    nextChatId := 2
    nextMsgId := 1
    nextSnapId := 1
    now := 7 }

/-- A database with one chat carrying metadata and one message carrying an
embedding, used to evaluate `duplicateChat` and `saveChatMessages`. -/
def dbRich : Db :=
  { chats := [⟨1, "alice", some "x", some "meta1", 0, 0⟩]
    messages := [⟨5, 1, "user", "hi", some [(1 : Rat)], 0⟩]
    snapshots := []
    nextChatId := 2
    nextMsgId := 6
    nextSnapId := 1
    now := 9 }

/-- A two-message chat used to instantiate the `forkChat` theorem. -/
def dbFork : Db :=
  { chats := [⟨1, "alice", some "x", none, 0, 0⟩]
    messages := [⟨5, 1, "user", "hi", none, 0⟩, ⟨6, 1, "assistant", "yo", none, 1⟩]
    snapshots := []
    nextChatId := 2
    nextMsgId := 7
    nextSnapId := 1
    now := 9 }

/-- The chat object `getChatDetails dbFork 1 "alice"` returns. -/
def chatFork : FetchedChat :=
  ⟨1, "alice", some "x", 0, 0,
    [⟨5, 1, "user", "hi", 0⟩, ⟨6, 1, "assistant", "yo", 1⟩]⟩

end PgData

namespace PgPool

open PgData

/-!
`app/lib/db.server.ts` exposes `query(text, params)`, which runs every
statement through `pool.query` on a `pg.Pool` with `max: 20`.  Each call is
dispatched to whichever pooled connection the pool hands out, so consecutive
`query` calls of one logical operation need not share a connection.  `BEGIN`,
`COMMIT` and `ROLLBACK` are session commands: they affect only the connection
that executes them, and a statement run on a connection with no open
transaction is committed immediately (autocommit).  The dispatch is modelled
by a schedule `σ` giving the connection index of the n-th `query` call of an
operation.
-/

/-- The pool state: the durable (committed) database plus, per connection,
the working copy of an open explicit transaction (`none` = autocommit). -/
structure PoolSt where
  committed : Db
  conns : List (Option Db)
deriving Repr, DecidableEq

/-- What a statement executed on connection `c` reads. -/
def view (ps : PoolSt) (c : Nat) : Db :=
  (ps.conns.getD c none).getD ps.committed

/-- Run a write on connection `c`: buffered if `c` has an open transaction,
durable immediately otherwise. -/
def writeOn (ps : PoolSt) (c : Nat) (f : Db → Db) : PoolSt :=
  match ps.conns.getD c none with
  | some d => { ps with conns := ps.conns.set c (some (f d)) }
  | none => { ps with committed := f ps.committed }

/-- Embeds `BEGIN` executed on connection `c`. -/
def beginOn (ps : PoolSt) (c : Nat) : PoolSt :=
  { ps with conns := ps.conns.set c (some (view ps c)) }

/-- Embeds `COMMIT` executed on connection `c` (a warning no-op outside a
transaction). -/
def commitOn (ps : PoolSt) (c : Nat) : PoolSt :=
  match ps.conns.getD c none with
  | some d => { committed := d, conns := ps.conns.set c none }
  | none => ps

/-- Embeds `ROLLBACK` executed on connection `c` (a warning no-op outside a
transaction). -/
def rollbackOn (ps : PoolSt) (c : Nat) : PoolSt :=
  { ps with conns := ps.conns.set c none }

/-- The message-copy loop of `duplicateChat` under pooled dispatch; `k` is the
index of the next `query` call. -/
def insertMsgsPool (σ : Nat → Nat) (newId : Nat) :
    Nat → List FetchedMsg → PoolSt → Nat × PoolSt
  | k, [], ps => (k, ps)
  | k, m :: rest, ps =>
    insertMsgsPool σ newId (k + 1) rest
      (writeOn ps (σ k) (fun d => d.insertMessage newId m.role m.content none m.created_at))

/-- Embeds `duplicateChat(originalChatId, userId)` as it actually executes through
`query`/`pool.query`: the n-th statement runs on connection `σ n`.  With
`failMsg = true` the first message `INSERT` raises (the failure-injection
scenario of the specification), upon which the catch block issues `ROLLBACK`
as the next `query` call and rethrows the wrapped error. -/
def duplicateChatPool (σ : Nat → Nat) (failMsg : Bool) (ps0 : PoolSt)
    (cid : Nat) (uid : String) : Except String Nat × PoolSt :=
  if uid = "" ∨ cid = 0 then
    (Except.error "Original Chat ID and User ID are required.", ps0)
  else
    let ps1 := beginOn ps0 (σ 0)
    match (view ps1 (σ 1)).chats.find? (fun c => c.id == cid && c.user_id == uid) with
    | none =>
      (Except.error "Failed to duplicate chat.", rollbackOn ps1 (σ 2))
    | some chat =>
      let msgs := fetchMsgs (view ps1 (σ 2)) cid
      let newDesc := match chat.description with
        | some d => "Copy of " ++ d
        | none => "Copied Chat"
      let newId := (view ps1 (σ 3)).nextChatId
      let ps2 := writeOn ps1 (σ 3) (fun d => (d.insertChat uid (some newDesc) none).2)
      if failMsg && !msgs.isEmpty then
        (Except.error "Failed to duplicate chat.", rollbackOn ps2 (σ 5))
      else
        let kps := insertMsgsPool σ newId 4 msgs ps2
        let k := kps.1
        let ps3 := kps.2
        if (view ps3 (σ k)).chats.any (fun c => c.id == cid && c.user_id == uid) then
          match latestSnapshot ((view ps3 (σ (k + 1))).snapshots.filter
              (fun s => s.chat_id == cid)) with
          | some s =>
            let ps4 := writeOn ps3 (σ (k + 2)) (fun d => d.insertSnapshot newId s.snapshot_data)
            (Except.ok newId, commitOn ps4 (σ (k + 3)))
          | none => (Except.ok newId, commitOn ps3 (σ (k + 2)))
        else
          (Except.ok newId, commitOn ps3 (σ (k + 1)))

/-- A dispatch schedule the pool is free to choose: the first `query` call
(`BEGIN`) lands on connection 0, every later call on connection 1. -/
def sigmaSplit : Nat → Nat := fun k => if k == 0 then 0 else 1

/-- An idle two-connection pool over `dbRich`. -/
def psC1 : PoolSt := { committed := dbRich, conns := [none, none] }

end PgPool

namespace UserDb

/-- A row of the `users` table. -/
structure UserRow where
  id : Nat
  email : String
  password_hash : String
  name : Option String
  avatar_url : Option String
  created_at : Nat
  updated_at : Nat
deriving Repr, DecidableEq

/-- The users database state. -/
structure UDb where
  users : List UserRow
  nextUserId : Nat
  now : Nat
deriving Repr, DecidableEq

/-- Embeds `createUser(email, passwordHash, name?, avatarUrl?)` from
`app/lib/.server/db/user.server.ts`: `INSERT INTO users ... RETURNING *`.
The `email` column is unique, so the insert raises when the email is already
present; the catch block logs and returns `null` for any insert error, so the
function never surfaces a distinct conflict error. -/
def createUser (db : UDb) (email passwordHash : String)
    (name avatarUrl : Option String) : Option UserRow × UDb :=
  if db.users.any (fun u => u.email == email) then (none, db)
  else
    let row : UserRow := ⟨db.nextUserId, email, passwordHash, name, avatarUrl, db.now, db.now⟩
    (some row, { db with users := db.users ++ [row], nextUserId := db.nextUserId + 1 })

/-- A users table already holding `a@example.com`. -/
def udbC5 : UDb :=
  { users := [⟨1, "a@example.com", "h1", none, none, 0, 0⟩], nextUserId := 2, now := 3 }

end UserDb

namespace ConvDb

/-- The `projects` columns relevant to the ownership join. -/
structure ProjRow where
  id : Nat
  user_id : String
deriving Repr, DecidableEq

/-- A row of the `conversations` table (messages blob kept opaque). -/
structure ConvRow where
  id : Nat
  project_id : Nat
  messages : String
  embedding : Option (List Rat)
  created_at : Nat
  updated_at : Nat
deriving Repr, DecidableEq

/-- The conversations database state. -/
structure CDb where
  projects : List ProjRow
  convs : List ConvRow
  now : Nat
deriving Repr, DecidableEq

/-- Embeds `getConversationById(conversationId, userId)`: ownership enforced by the
join `conversations c JOIN projects p ON c.project_id = p.id WHERE c.id = $1
AND p.user_id = $2`; `rows[0] || null`. -/
def getConversationById (db : CDb) (cid : Nat) (uid : String) : Option ConvRow :=
  db.convs.find? (fun c =>
    c.id == cid && db.projects.any (fun p => p.id == c.project_id && p.user_id == uid))

/-- Embeds `updateConversationEmbedding(conversationId, userId, embedding)`:
fetch-first ownership check, then `UPDATE conversations SET embedding = $1,
updated_at = NOW() WHERE id = $2 RETURNING *`. -/
def updateConversationEmbedding (db : CDb) (cid : Nat) (uid : String)
    (emb : List Rat) : Option ConvRow × CDb :=
  match getConversationById db cid uid with
  | none => (none, db)
  | some _ =>
    let rows := db.convs.map (fun r =>
      if r.id == cid then { r with embedding := some emb, updated_at := db.now } else r)
    (rows.find? (fun r => r.id == cid), { db with convs := rows })

/-- A two-conversation state used to instantiate the frame theorem. -/
def cdbC9 : CDb :=
  { projects := [⟨1, "alice"⟩]
    convs := [⟨10, 1, "m1", none, 0, 0⟩, ⟨11, 1, "m2", some [(2 : Rat)], 0, 0⟩]
    now := 4 }

end ConvDb

namespace ProjectDb

/-- A row of the `projects` table. -/
structure ProjectRow where
  id : Nat
  user_id : String
  name : String
  description : Option String
  code_content : Option String
  preview_url : Option String
  created_at : Nat
  updated_at : Nat
deriving Repr, DecidableEq

/-- The projects database state. -/
structure PDb where
  projects : List ProjectRow
  now : Nat
deriving Repr, DecidableEq

/-- The `Partial<...>` update argument of `updateProject`: the outer `Option`
is presence of the field (`!== undefined`), the inner `Option` of the nullable
columns is SQL `NULL`. -/
structure ProjectUpdates where
  name : Option String
  description : Option (Option String)
  code_content : Option (Option String)
  preview_url : Option (Option String)
deriving Repr, DecidableEq

/-- The dynamically built `SET` clause list of `updateProject`, in source
order: name, description, code_content, preview_url. -/
def setClausesOf (u : ProjectUpdates) : List (ProjectRow → ProjectRow) :=
  (match u.name with
    | some v => [fun r => { r with name := v }]
    | none => []) ++
  (match u.description with
    | some v => [fun r => { r with description := v }]
    | none => []) ++
  (match u.code_content with
    | some v => [fun r => { r with code_content := v }]
    | none => []) ++
  (match u.preview_url with
    | some v => [fun r => { r with preview_url := v }]
    | none => [])

/-- Apply the built `SET` clauses to a row. -/
def applyClauses (u : ProjectUpdates) (r : ProjectRow) : ProjectRow :=
  (setClausesOf u).foldl (fun a f => f a) r

/-- The `WHERE id = $n AND user_id = $m` ownership predicate. -/
def ownPred (pid : Nat) (uid : String) (r : ProjectRow) : Bool :=
  r.id == pid && r.user_id == uid

/-- The full row update of `updateProject`: the supplied `SET` clauses plus
`updated_at = NOW()`. -/
def updRow (db : PDb) (u : ProjectUpdates) (r : ProjectRow) : ProjectRow :=
  { applyClauses u r with updated_at := db.now }

/-- Embeds `getProjectById(projectId, userId)`: `WHERE id = $1 AND user_id = $2`,
`rows[0] || null`. -/
def getProjectById (db : PDb) (pid : Nat) (uid : String) : Option ProjectRow :=
  db.projects.find? (ownPred pid uid)

/-- Embeds `updateProject(projectId, userId, updates)`: with no supplied field the
call degenerates to `getProjectById`; otherwise `UPDATE projects SET <clauses>,
updated_at = NOW() WHERE id = ... AND user_id = ... RETURNING *`, with
`rows[0] || null` as the result. -/
def updateProject (db : PDb) (pid : Nat) (uid : String) (u : ProjectUpdates) :
    Option ProjectRow × PDb :=
  if (setClausesOf u).isEmpty then (getProjectById db pid uid, db)
  else
    ((db.projects.map (fun r => if ownPred pid uid r then updRow db u r else r)).find?
        (ownPred pid uid),
      { db with projects :=
          db.projects.map (fun r => if ownPred pid uid r then updRow db u r else r) })

/-- A two-project state used to instantiate the update theorem. -/
def pdbC7 : PDb :=
  { projects := [⟨1, "alice", "p1", some "d1", none, none, 0, 0⟩,
                 ⟨2, "bob", "p2", none, none, none, 0, 0⟩]
    now := 6 }

/-- An update supplying only the name. -/
def updName : ProjectUpdates := ⟨some "renamed", none, none, none⟩

end ProjectDb

namespace SimSearch

/-- A row of the `conversations` table of the `my-remix-app` schema. -/
structure Conv where
  id : Nat
  project_id : Nat
  messages : String
  embedding : Option (List Rat)
  created_at : Nat
  updated_at : Nat
deriving Repr, DecidableEq

/-- Embeds `similarity_score = 1 - (embedding <=> $1)` for a stored row, given the
database cosine-distance operator `dist`. -/
def score (dist : List Rat → List Rat → Rat) (q : List Rat) (c : Conv) : Rat :=
  match c.embedding with
  | some e => 1 - dist e q
  | none => 0

/-- The `WHERE ... (embedding <=> $1) < $3` predicate; a row with a `NULL`
embedding yields SQL `NULL` and is filtered out. -/
def clears (dist : List Rat → List Rat → Rat) (q : List Rat) (dth : Rat)
    (c : Conv) : Bool :=
  match c.embedding with
  | some e => decide (dist e q < dth)
  | none => false

/-- One step of `ORDER BY similarity_score DESC`. -/
def insertDesc (key : Conv → Rat) (c : Conv) : List Conv → List Conv
  | [] => [c]
  | x :: xs => if key x ≤ key c then c :: x :: xs else x :: insertDesc key c xs

/-- Embeds `ORDER BY similarity_score DESC` as an insertion sort. -/
def sortDesc (key : Conv → Rat) : List Conv → List Conv
  | [] => []
  | x :: xs => insertDesc key x (sortDesc key xs)

/-- Embeds `findSimilarConversations(projectId, queryEmbedding, limit,
similarityThreshold)`: filter to the project and to cosine distance below
`1 - threshold`, order by similarity descending, cap at `limit`.  The operator
`<=>` is the vector extension primitive and enters as the argument `dist`.
The function takes no caller identity. -/
def findSimilarConversations (dist : List Rat → List Rat → Rat)
    (convs : List Conv) (projectId : Nat) (q : List Rat) (lim : Nat)
    (threshold : Rat) : List Conv :=
  (sortDesc (score dist q)
    (convs.filter (fun c =>
      c.project_id == projectId && clears dist q (1 - threshold) c))).take lim

/-- A concrete executable stand-in for the distance operator, used only to
instantiate the universally quantified theorems. -/
def distEx (a b : List Rat) : Rat :=
  ((a.zip b).map (fun p => (p.1 - p.2) * (p.1 - p.2))).sum

/-- Conversations of two projects with assorted embeddings. -/
def convsEx : List Conv :=
  [⟨1, 1, "m1", some [(0 : Rat)], 0, 0⟩,
   ⟨2, 1, "m2", some [(3 : Rat)], 0, 0⟩,
   ⟨3, 2, "m3", some [(0 : Rat)], 0, 0⟩,
   ⟨4, 1, "m4", none, 0, 0⟩]

/-- The same rows with project 2 replaced by different data. -/
def convsEx2 : List Conv :=
  [⟨1, 1, "m1", some [(0 : Rat)], 0, 0⟩,
   ⟨2, 1, "m2", some [(3 : Rat)], 0, 0⟩,
   ⟨9, 2, "other", some [(7 : Rat)], 5, 5⟩,
   ⟨4, 1, "m4", none, 0, 0⟩]

end SimSearch

/-! ## Theorems -/

namespace PgData

lemma getChatDetails_ok_guards (db : Db) (cid : Nat) (uid : String)
    (r : Option FetchedChat) (h : getChatDetails db cid uid = Except.ok r) :
    ¬(uid = "" ∨ cid = 0) := by
  intro hcon
  rw [getChatDetails, if_pos hcon] at h
  exact Except.noConfusion h

lemma getSnapshot_isOk (db : Db) (cid : Nat) (uid : String)
    (hg : ¬(uid = "" ∨ cid = 0)) : ∃ r, getSnapshot db cid uid = Except.ok r := by
  rw [getSnapshot, if_neg hg]
  by_cases hc : db.chats.any (fun c => c.id == cid && c.user_id == uid) = true
  · exact ⟨_, by rw [if_pos hc]⟩
  · exact ⟨none, by rw [if_neg hc]⟩

lemma insertMessage_chats (db : Db) (cid : Nat) (role content : String)
    (emb : Option (List Rat)) (ts : Nat) :
    (db.insertMessage cid role content emb ts).chats = db.chats := rfl

lemma insertCopies_messages_map (newId : Nat) (L : List FetchedMsg) (db : Db) :
    (insertCopies newId L db).messages.map msgData =
      db.messages.map msgData ++ L.map (copyData newId) := by
  induction L generalizing db with
  | nil => simp [insertCopies]
  | cons m rest ih =>
    have hstep : insertCopies newId (m :: rest) db =
        insertCopies newId rest (db.insertMessage newId m.role m.content none m.created_at) := rfl
    rw [hstep, ih]
    simp [Db.insertMessage, msgData, copyData]

lemma insertSnapshot_messages (db : Db) (cid : Nat) (s : String) :
    (db.insertSnapshot cid s).messages = db.messages := rfl

lemma forkFinish_messages (db : Db) (cid mId forkIdx : Nat) (uid : String)
    (chat : FetchedChat) (hg : ¬(uid = "" ∨ cid = 0)) :
    ∃ newId dbOut, forkFinish db cid mId forkIdx uid chat = Except.ok (newId, dbOut) ∧
      dbOut.messages.map msgData =
        db.messages.map msgData ++ (chat.messages.take (forkIdx + 1)).map (copyData newId) := by
  obtain ⟨r, hsnap⟩ := getSnapshot_isOk
    (insertCopies (db.insertChat uid (some (forkDesc chat mId)) none).1
      (chat.messages.take (forkIdx + 1))
      (db.insertChat uid (some (forkDesc chat mId)) none).2) cid uid hg
  have hbase : ((db.insertChat uid (some (forkDesc chat mId)) none).2).messages.map msgData
      = db.messages.map msgData := rfl
  refine ⟨(db.insertChat uid (some (forkDesc chat mId)) none).1, ?_⟩
  rw [forkFinish]
  rw [hsnap]
  cases r with
  | none =>
    exact ⟨_, rfl, by rw [insertCopies_messages_map, hbase]⟩
  | some s =>
    refine ⟨_, rfl, ?_⟩
    rw [insertSnapshot_messages, insertCopies_messages_map, hbase]

/-- Claim C10 (counterexample): `deleteChatById` does not resolve successfully
for every (chatId, userId) pair with no owned chat: with the JS-falsy user id
`""` — which owns no chat in `dbC10` — the call raises the wrapped validation
error instead of resolving as a silent no-op. -/
theorem deleteChatById_empty_userid_errors :
    deleteChatById dbC10 1 "" = Except.error "Failed to delete chat." ∧
    dbC10.chats.all (fun c => !(c.user_id == "")) = true :=
  ⟨rfl, rfl⟩

/-- Claim C10 (amended): for every chat id and user id that pass the
truthiness validation (non-zero chat id, non-empty user id), if no chat with
that id and owner exists then `deleteChatById` resolves successfully and the
database is unchanged — the caller cannot distinguish the no-op from a real
delete. -/
theorem deleteChatById_noop_spec (db : Db) (cid : Nat) (uid : String)
    (h1 : uid ≠ "") (h2 : cid ≠ 0)
    (h3 : ∀ c ∈ db.chats, ¬(c.id = cid ∧ c.user_id = uid)) :
    deleteChatById db cid uid = Except.ok db := by
  have hany : db.chats.any (fun c => c.id == cid && c.user_id == uid) = false := by
    rw [List.any_eq_false]
    intro c hc
    simp only [Bool.and_eq_true, beq_iff_eq]
    exact h3 c hc
  simp [deleteChatById, h1, h2, hany]

/-- Witness for `deleteChatById_noop_spec` at a concrete input. -/
theorem deleteChatById_noop_spec_witness :
    deleteChatById dbC10 2 "bob" = Except.ok dbC10 :=
  deleteChatById_noop_spec dbC10 2 "bob" (by decide) (by decide) (by decide)

/-- Claim C2 (code evaluated at the failing input): `dbRich` holds chat 1
owned by `alice`, yet `saveChatMessages` called by `bob` with chat id 1
succeeds and inserts the message of `bob` into the chat of `alice`: the
ownership-scoped chat UPDATE matches zero rows, but its row count is never
checked and the message INSERT is keyed by chat id alone. -/
theorem saveChatMessages_writes_into_foreign_chat :
    (saveChatMessages dbRich "bob" [⟨"user", "yo", none⟩] (some 1) none none).map
        (fun p => (p.1, p.2.messages.map msgData)) =
      Except.ok (1, dbRich.messages.map msgData ++ [(1, "user", "yo", none, 9)]) ∧
    dbRich.chats.map (fun c => (c.id, c.user_id)) = [(1, "alice")] :=
  ⟨rfl, rfl⟩

/-- Claim C3 (code evaluated at the failing input): duplicating the `alice` chat
1 — whose chat row has metadata `meta1` and whose single message has embedding
`[1]` — yields a new chat 2 whose metadata is `NULL` and whose copied message
has embedding `NULL`: `getChatDetails` selects neither the `metadata` nor the
`embedding` column, so `duplicateChat` writes nulls although its own comment
says the original metadata is used.  Description and role/content are copied
as claimed and the new id differs from the original. -/
theorem duplicateChat_drops_metadata_and_embedding :
    (duplicateChat dbRich 1 "alice").map (fun p => p.1) = Except.ok 2 ∧
    (duplicateChat dbRich 1 "alice").map
        (fun p => (p.2.chats.map (fun c => (c.id, c.description, c.metadata)),
                   p.2.messages.map msgData)) =
      Except.ok ([(1, some "x", some "meta1"), (2, some "Copy of x", none)],
        [(1, "user", "hi", some [(1 : Rat)], 0), (2, "user", "hi", none, 0)]) :=
  ⟨rfl, rfl⟩

/-- Claim C4: given the fetched chat object for `(chatId, userId)` and a
non-falsy fork message id, `forkChat` fails with the wrapped client error when
no message of the chat has that id, and otherwise — with `i` the index of the
FIRST message whose id matches, per `findIndex` — it succeeds and appends to
the message table exactly the copies of messages `0..i` of the chat, in
original fetched order. -/
theorem forkChat_prefix_spec (db : Db) (cid mId : Nat) (uid : String)
    (chat : FetchedChat)
    (hchat : getChatDetails db cid uid = Except.ok (some chat)) (hm : mId ≠ 0) :
    (chat.messages.findIdx? (fun m => m.id == mId) = none →
      forkChat db cid mId uid = Except.error "Failed to fork chat.") ∧
    (∀ i, chat.messages.findIdx? (fun m => m.id == mId) = some i →
      ∃ newId dbOut, forkChat db cid mId uid = Except.ok (newId, dbOut) ∧
        dbOut.messages.map msgData =
          db.messages.map msgData ++
            (chat.messages.take (i + 1)).map (copyData newId)) := by
  have hg := getChatDetails_ok_guards db cid uid (some chat) hchat
  have hg3 : ¬(uid = "" ∨ cid = 0 ∨ mId = 0) := by
    intro hcon
    rcases hcon with h | h | h
    · exact hg (Or.inl h)
    · exact hg (Or.inr h)
    · exact hm h
  constructor
  · intro hnone
    by_cases he : chat.messages.isEmpty = true
    · simp [forkChat, hg3, hchat, he]
    · simp [forkChat, hg3, hchat, he, hnone]
  · intro i hi
    have hne : chat.messages.isEmpty = false := by
      cases hmsg : chat.messages with
      | nil => rw [hmsg] at hi; simp [List.findIdx?] at hi
      | cons a l => rfl
    have hfork : forkChat db cid mId uid = forkFinish db cid mId i uid chat := by
      simp [forkChat, hg3, hchat, hne, hi]
    obtain ⟨newId, dbOut, heq, hmsgs⟩ := forkFinish_messages db cid mId i uid chat hg
    exact ⟨newId, dbOut, by rw [hfork]; exact heq, hmsgs⟩

/-- Witness for `forkChat_prefix_spec`: on `dbFork` the missing id 99 yields
the client error, and forking at the first message id 5 appends exactly one
copied message. -/
theorem forkChat_prefix_spec_witness :
    forkChat dbFork 1 99 "alice" = Except.error "Failed to fork chat." ∧
    (∃ newId dbOut, forkChat dbFork 1 5 "alice" = Except.ok (newId, dbOut) ∧
      dbOut.messages.map msgData =
        dbFork.messages.map msgData ++
          (chatFork.messages.take 1).map (copyData newId)) := by
  constructor
  · exact (forkChat_prefix_spec dbFork 1 99 "alice" chatFork rfl (by decide)).1 rfl
  · exact (forkChat_prefix_spec dbFork 1 5 "alice" chatFork rfl (by decide)).2 0 rfl

end PgData

namespace PgPool

/-- Claim C1 (code evaluated at the failing input): on a two-connection pool,
with the first message INSERT of `duplicateChat` failing after the chat INSERT
succeeded — the specification failure-injection scenario — and the pool
dispatching the `BEGIN` to connection 0 and every later statement to
connection 1 (`sigmaSplit`), the operation rejects, yet the newly inserted
`Copy of x` chat row is durable in the committed database: the chat INSERT ran
autocommitted on a connection with no open transaction, so the `ROLLBACK`
undoes nothing and an orphan chat persists. -/
theorem duplicateChat_rollback_leaves_orphan_chat :
    (duplicateChatPool sigmaSplit true psC1 1 "alice").1 =
      Except.error "Failed to duplicate chat." ∧
    (duplicateChatPool sigmaSplit true psC1 1 "alice").2.committed.chats.map
        (fun c => (c.id, c.user_id, c.description)) =
      [(1, "alice", some "x"), (2, "alice", some "Copy of x")] ∧
    psC1.committed.chats.map (fun c => c.id) = [1] ∧
    (duplicateChatPool sigmaSplit true psC1 1 "alice").2.committed.messages =
      psC1.committed.messages ∧
    (duplicateChatPool sigmaSplit true psC1 1 "alice").2.committed.snapshots =
      psC1.committed.snapshots :=
  ⟨rfl, rfl, rfl, rfl, rfl⟩

end PgPool

namespace UserDb

/-- Claim C5 (counterexample): with `a@example.com` already registered,
`createUser` for that same email neither succeeds nor surfaces a distinct
conflict error — the unique-constraint violation is caught and swallowed and
the call resolves with the non-error result `null`. -/
theorem createUser_duplicate_email_returns_null :
    createUser udbC5 "a@example.com" "h2" none none = (none, udbC5) ∧
    udbC5.users.map (fun u => u.email) = ["a@example.com"] :=
  ⟨rfl, rfl⟩

/-- Claim C5 (amended): for every email already present in the users table,
`createUser` resolves with `null` (the constraint violation is caught, logged
and swallowed rather than surfaced as a `ConflictError`) and inserts
nothing. -/
theorem createUser_duplicate_email_spec (db : UDb) (email ph : String)
    (n a : Option String) (h : ∃ u ∈ db.users, u.email = email) :
    createUser db email ph n a = (none, db) := by
  obtain ⟨u, hu, he⟩ := h
  have hany : db.users.any (fun v => v.email == email) = true := by
    rw [List.any_eq_true]
    exact ⟨u, hu, by simp [he]⟩
  simp [createUser, hany]

/-- Witness for `createUser_duplicate_email_spec` at a concrete input. -/
theorem createUser_duplicate_email_spec_witness :
    createUser udbC5 "a@example.com" "h3" (some "Al") none = (none, udbC5) :=
  createUser_duplicate_email_spec udbC5 "a@example.com" "h3" (some "Al") none
    ⟨⟨1, "a@example.com", "h1", none, none, 0, 0⟩, by decide, rfl⟩

end UserDb

namespace ConvDb

/-- Claim C9: a successful `updateConversationEmbedding(id, userId, E)` keeps
the conversation table pointwise intact except that rows with the target id
get embedding `E` and a refreshed `updated_at`: every row keeps its id,
project_id, messages and created_at, every row with a different id is
untouched, and the projects table is untouched. -/
theorem updateConversationEmbedding_frame (db : CDb) (cid : Nat) (uid : String)
    (emb : List Rat) (c2 : ConvRow)
    (h : (updateConversationEmbedding db cid uid emb).1 = some c2) :
    (updateConversationEmbedding db cid uid emb).2.convs.length = db.convs.length ∧
    (updateConversationEmbedding db cid uid emb).2.projects = db.projects ∧
    (∀ i (hi : i < db.convs.length)
        (hi2 : i < (updateConversationEmbedding db cid uid emb).2.convs.length),
      ((updateConversationEmbedding db cid uid emb).2.convs[i].id = db.convs[i].id) ∧
      ((updateConversationEmbedding db cid uid emb).2.convs[i].project_id = db.convs[i].project_id) ∧
      ((updateConversationEmbedding db cid uid emb).2.convs[i].messages = db.convs[i].messages) ∧
      ((updateConversationEmbedding db cid uid emb).2.convs[i].created_at = db.convs[i].created_at) ∧
      (db.convs[i].id ≠ cid → (updateConversationEmbedding db cid uid emb).2.convs[i] = db.convs[i]) ∧
      (db.convs[i].id = cid →
        (updateConversationEmbedding db cid uid emb).2.convs[i].embedding = some emb ∧
        (updateConversationEmbedding db cid uid emb).2.convs[i].updated_at = db.now)) := by
  cases hfetch : getConversationById db cid uid with
  | none =>
    rw [updateConversationEmbedding, hfetch] at h
    exact absurd h (by simp)
  | some c0 =>
    have hconvs : (updateConversationEmbedding db cid uid emb).2.convs =
        db.convs.map (fun r =>
          if r.id == cid then { r with embedding := some emb, updated_at := db.now }
          else r) := by
      rw [updateConversationEmbedding, hfetch]
    refine ⟨by rw [hconvs]; simp, by rw [updateConversationEmbedding, hfetch], ?_⟩
    intro i hi hi2
    have hgetq : (updateConversationEmbedding db cid uid emb).2.convs[i]? =
        some (if db.convs[i].id == cid
          then { db.convs[i] with embedding := some emb, updated_at := db.now }
          else db.convs[i]) := by
      rw [hconvs, List.getElem?_map, List.getElem?_eq_getElem hi]
      rfl
    have hget : (updateConversationEmbedding db cid uid emb).2.convs[i] =
        (if db.convs[i].id == cid
          then { db.convs[i] with embedding := some emb, updated_at := db.now }
          else db.convs[i]) := by
      rw [List.getElem?_eq_getElem hi2] at hgetq
      exact Option.some.inj hgetq
    by_cases hid : db.convs[i].id = cid
    · rw [hget, if_pos (by simp [hid])]
      refine ⟨rfl, rfl, rfl, rfl, fun hne => absurd hid hne, fun _ => ⟨rfl, rfl⟩⟩
    · rw [hget, if_neg (by simp [hid])]
      exact ⟨rfl, rfl, rfl, rfl, fun _ => rfl, fun heq => absurd heq hid⟩

/-- Witness for `updateConversationEmbedding_frame` at a concrete input. -/
theorem updateConversationEmbedding_frame_witness :
    (updateConversationEmbedding cdbC9 10 "alice" [(5 : Rat)]).2.convs.length =
      cdbC9.convs.length ∧
    (updateConversationEmbedding cdbC9 10 "alice" [(5 : Rat)]).2.projects =
      cdbC9.projects := by
  have h := updateConversationEmbedding_frame cdbC9 10 "alice" [(5 : Rat)]
    ⟨10, 1, "m1", some [(5 : Rat)], 0, 4⟩ rfl
  exact ⟨h.1, h.2.1⟩

end ConvDb

namespace ProjectDb

lemma applyClauses_fields (u : ProjectUpdates) (r : ProjectRow) :
    (applyClauses u r).id = r.id ∧ (applyClauses u r).user_id = r.user_id ∧
    (applyClauses u r).created_at = r.created_at ∧
    (applyClauses u r).name = (match u.name with | some v => v | none => r.name) ∧
    (applyClauses u r).description =
      (match u.description with | some v => v | none => r.description) ∧
    (applyClauses u r).code_content =
      (match u.code_content with | some v => v | none => r.code_content) ∧
    (applyClauses u r).preview_url =
      (match u.preview_url with | some v => v | none => r.preview_url) := by
  obtain ⟨n, d, cc, pu⟩ := u
  cases n <;> cases d <;> cases cc <;> cases pu <;>
    simp [applyClauses, setClausesOf]

lemma setClausesOf_eq_nil (u : ProjectUpdates) (h : setClausesOf u = []) :
    u.name = none ∧ u.description = none ∧ u.code_content = none ∧
      u.preview_url = none := by
  obtain ⟨n, d, cc, pu⟩ := u
  cases n <;> cases d <;> cases cc <;> cases pu <;> simp_all [setClausesOf]

lemma find?_map_cond {α : Type} (l : List α) (p : α → Bool) (f : α → α)
    (hp : ∀ a, p (f a) = p a) :
    (l.map (fun a => if p a then f a else a)).find? p = (l.find? p).map f := by
  induction l with
  | nil => rfl
  | cons x xs ih =>
    by_cases hx : p x = true
    · rw [List.map_cons, if_pos hx, List.find?_cons_of_pos _ (by rw [hp]; exact hx),
        List.find?_cons_of_pos _ hx]
      rfl
    · rw [List.map_cons, if_neg hx, List.find?_cons_of_neg _ hx,
        List.find?_cons_of_neg _ hx, ih]

lemma map_ite_id {α : Type} (l : List α) (p : α → Bool) (f : α → α)
    (h : ∀ a ∈ l, p a = false) :
    l.map (fun a => if p a then f a else a) = l := by
  induction l with
  | nil => rfl
  | cons x xs ih =>
    have hx := h x (List.mem_cons_self x xs)
    rw [List.map_cons, if_neg (by simp [hx]),
      ih (fun a ha => h a (List.mem_cons_of_mem _ ha))]

lemma updRow_ownPred (db : PDb) (u : ProjectUpdates) (pid : Nat) (uid : String)
    (a : ProjectRow) : ownPred pid uid (updRow db u a) = ownPred pid uid a := by
  have h := applyClauses_fields u a
  simp [ownPred, updRow, h.1, h.2.1]

/-- Claim C7: `updateProject` updates only the supplied fields (unsupplied
content fields keep their previous values, supplied ones take the supplied
values, and id/owner/created_at are preserved); an update supplying no field
degenerates to a plain `getProjectById` fetch with the database unchanged; the
result is `null` whenever no project row with the given id and owner exists;
and rows other than the addressed one are never modified. -/
theorem updateProject_spec (db : PDb) (pid : Nat) (uid : String)
    (u : ProjectUpdates) :
    (setClausesOf u = [] → updateProject db pid uid u = (getProjectById db pid uid, db)) ∧
    (getProjectById db pid uid = none →
      (updateProject db pid uid u).1 = none ∧
      (updateProject db pid uid u).2.projects = db.projects) ∧
    (∀ r, getProjectById db pid uid = some r →
      ∃ r2, (updateProject db pid uid u).1 = some r2 ∧
        r2.id = r.id ∧ r2.user_id = r.user_id ∧ r2.created_at = r.created_at ∧
        (u.name = none → r2.name = r.name) ∧
        (∀ v, u.name = some v → r2.name = v) ∧
        (u.description = none → r2.description = r.description) ∧
        (∀ v, u.description = some v → r2.description = v) ∧
        (u.code_content = none → r2.code_content = r.code_content) ∧
        (∀ v, u.code_content = some v → r2.code_content = v) ∧
        (u.preview_url = none → r2.preview_url = r.preview_url) ∧
        (∀ v, u.preview_url = some v → r2.preview_url = v)) ∧
    (∀ i (hi : i < db.projects.length)
        (hi2 : i < (updateProject db pid uid u).2.projects.length),
      ownPred pid uid db.projects[i] = false →
      (updateProject db pid uid u).2.projects[i] = db.projects[i]) := by
  by_cases hcl : (setClausesOf u).isEmpty = true
  · have hnil : setClausesOf u = [] := by
      cases hval : setClausesOf u with
      | nil => rfl
      | cons a l => rw [hval] at hcl; exact absurd hcl (by simp)
    obtain ⟨hn, hd, hcc, hpu⟩ := setClausesOf_eq_nil u hnil
    have hupd : updateProject db pid uid u = (getProjectById db pid uid, db) := by
      rw [updateProject, if_pos hcl]
    refine ⟨fun _ => hupd, fun hnone => ⟨by rw [hupd]; exact hnone, by rw [hupd]⟩,
      ?_, ?_⟩
    · intro r hr
      refine ⟨r, by rw [hupd]; exact hr, rfl, rfl, rfl,
        fun _ => rfl, ?_, fun _ => rfl, ?_, fun _ => rfl, ?_, fun _ => rfl, ?_⟩
      · intro v hv; rw [hn] at hv; exact Option.noConfusion hv
      · intro v hv; rw [hd] at hv; exact Option.noConfusion hv
      · intro v hv; rw [hcc] at hv; exact Option.noConfusion hv
      · intro v hv; rw [hpu] at hv; exact Option.noConfusion hv
    · intro i hi hi2 _
      have hq : (updateProject db pid uid u).2.projects[i]? = db.projects[i]? := by
        rw [hupd]
      rw [List.getElem?_eq_getElem hi2, List.getElem?_eq_getElem hi] at hq
      exact Option.some.inj hq
  · have hproj : (updateProject db pid uid u).2.projects =
        db.projects.map (fun r => if ownPred pid uid r then updRow db u r else r) := by
      rw [updateProject, if_neg hcl]
    have hfst : (updateProject db pid uid u).1 =
        (db.projects.find? (ownPred pid uid)).map (updRow db u) := by
      rw [updateProject, if_neg hcl]
      exact find?_map_cond db.projects (ownPred pid uid) (updRow db u)
        (updRow_ownPred db u pid uid)
    refine ⟨?_, ?_, ?_, ?_⟩
    · intro hnil
      exact absurd (by rw [hnil]; rfl) hcl
    · intro hnone
      refine ⟨by rw [hfst, getProjectById] at *; rw [hnone]; rfl, ?_⟩
      rw [hproj]
      exact map_ite_id db.projects (ownPred pid uid) (updRow db u)
        (fun a ha => by
          have := List.find?_eq_none.mp (by rw [getProjectById] at hnone; exact hnone) a ha
          simpa using this)
    · intro r hr
      have hfields := applyClauses_fields u r
      refine ⟨updRow db u r, ?_, ?_, ?_, ?_, ?_, ?_, ?_, ?_, ?_, ?_, ?_, ?_⟩
      · rw [hfst, getProjectById] at *
        rw [hr]
        rfl
      · show (applyClauses u r).id = r.id
        exact hfields.1
      · show (applyClauses u r).user_id = r.user_id
        exact hfields.2.1
      · show (applyClauses u r).created_at = r.created_at
        exact hfields.2.2.1
      · intro hv
        show (applyClauses u r).name = r.name
        rw [hfields.2.2.2.1, hv]
      · intro v hv
        show (applyClauses u r).name = v
        rw [hfields.2.2.2.1, hv]
      · intro hv
        show (applyClauses u r).description = r.description
        rw [hfields.2.2.2.2.1, hv]
      · intro v hv
        show (applyClauses u r).description = v
        rw [hfields.2.2.2.2.1, hv]
      · intro hv
        show (applyClauses u r).code_content = r.code_content
        rw [hfields.2.2.2.2.2.1, hv]
      · intro v hv
        show (applyClauses u r).code_content = v
        rw [hfields.2.2.2.2.2.1, hv]
      · intro hv
        show (applyClauses u r).preview_url = r.preview_url
        rw [hfields.2.2.2.2.2.2, hv]
      · intro v hv
        show (applyClauses u r).preview_url = v
        rw [hfields.2.2.2.2.2.2, hv]
    · intro i hi hi2 hfalse
      have hgetq : (updateProject db pid uid u).2.projects[i]? =
          some (if ownPred pid uid db.projects[i] then updRow db u db.projects[i]
            else db.projects[i]) := by
        rw [hproj, List.getElem?_map, List.getElem?_eq_getElem hi]
        rfl
      rw [List.getElem?_eq_getElem hi2] at hgetq
      rw [Option.some.inj hgetq, if_neg (by simp [hfalse])]

/-- Witness for `updateProject_spec`: on `pdbC7` a name-only update returns a
row with the new name and the untouched description. -/
theorem updateProject_spec_witness :
    ∃ r2, (updateProject pdbC7 1 "alice" updName).1 = some r2 ∧
      r2.name = "renamed" ∧ r2.description = some "d1" := by
  obtain ⟨r2, h1, _, _, _, _, hn_some, hd_none, _⟩ :=
    (updateProject_spec pdbC7 1 "alice" updName).2.2.1
      ⟨1, "alice", "p1", some "d1", none, none, 0, 0⟩ rfl
  exact ⟨r2, h1, hn_some "renamed" rfl, hd_none rfl⟩

end ProjectDb

namespace SimSearch

lemma mem_insertDesc (key : Conv → Rat) (c : Conv) (l : List Conv) (a : Conv) :
    a ∈ insertDesc key c l ↔ a = c ∨ a ∈ l := by
  induction l with
  | nil => simp [insertDesc]
  | cons x xs ih =>
    by_cases h : key x ≤ key c
    · simp [insertDesc, h]
    · simp [insertDesc, h, ih]
      tauto

lemma mem_sortDesc (key : Conv → Rat) (l : List Conv) (a : Conv) :
    a ∈ sortDesc key l ↔ a ∈ l := by
  induction l with
  | nil => simp [sortDesc]
  | cons x xs ih => simp [sortDesc, mem_insertDesc, ih]

lemma pairwise_insertDesc (key : Conv → Rat) (c : Conv) (l : List Conv)
    (h : l.Pairwise (fun a b => key b ≤ key a)) :
    (insertDesc key c l).Pairwise (fun a b => key b ≤ key a) := by
  induction l with
  | nil => simp [insertDesc]
  | cons x xs ih =>
    rcases List.pairwise_cons.mp h with ⟨hx, hxs⟩
    by_cases hc : key x ≤ key c
    · rw [show insertDesc key c (x :: xs) = c :: x :: xs by
        rw [insertDesc, if_pos hc]]
      refine List.pairwise_cons.mpr ⟨?_, h⟩
      intro b hb
      rcases List.mem_cons.mp hb with hb | hb
      · rw [hb]; exact hc
      · exact le_trans (hx b hb) hc
    · rw [show insertDesc key c (x :: xs) = x :: insertDesc key c xs by
        rw [insertDesc, if_neg hc]]
      refine List.pairwise_cons.mpr ⟨?_, ih hxs⟩
      intro b hb
      rcases (mem_insertDesc key c xs b).mp hb with hb | hb
      · rw [hb]; exact le_of_not_le hc
      · exact hx b hb
  -- descending order is preserved when inserting

lemma pairwise_sortDesc (key : Conv → Rat) (l : List Conv) :
    (sortDesc key l).Pairwise (fun a b => key b ≤ key a) := by
  induction l with
  | nil => simp [sortDesc]
  | cons x xs ih => exact pairwise_insertDesc key x (sortDesc key xs) ih

/-- Claim C6: every returned conversation belongs to the requested project and
has a stored embedding whose distance to the query is strictly below
`1 - threshold`; the result is ordered by descending similarity score; at most
`limit` rows are returned; and when no stored conversation of the project
clears the threshold the result is the empty list, returned normally rather
than as an error. -/
theorem findSimilarConversations_spec (dist : List Rat → List Rat → Rat)
    (convs : List Conv) (p : Nat) (q : List Rat) (lim : Nat) (th : Rat) :
    (∀ c ∈ findSimilarConversations dist convs p q lim th,
      c.project_id = p ∧ ∃ e, c.embedding = some e ∧ dist e q < 1 - th) ∧
    (findSimilarConversations dist convs p q lim th).Pairwise
      (fun a b => score dist q b ≤ score dist q a) ∧
    (findSimilarConversations dist convs p q lim th).length ≤ lim ∧
    ((∀ c ∈ convs, c.project_id = p → clears dist q (1 - th) c = false) →
      findSimilarConversations dist convs p q lim th = []) := by
  refine ⟨?_, ?_, ?_, ?_⟩
  · intro c hc
    have hc2 : c ∈ sortDesc (score dist q)
        (convs.filter (fun c => c.project_id == p && clears dist q (1 - th) c)) :=
      List.mem_of_mem_take hc
    have hc3 := (mem_sortDesc _ _ c).mp hc2
    obtain ⟨hmem, hpred⟩ := List.mem_filter.mp hc3
    rw [Bool.and_eq_true] at hpred
    obtain ⟨hproj, hclear⟩ := hpred
    refine ⟨by simpa using hproj, ?_⟩
    cases hemb : c.embedding with
    | none => simp [clears, hemb] at hclear
    | some e =>
      refine ⟨e, rfl, ?_⟩
      simpa [clears, hemb] using hclear
  · exact List.Pairwise.sublist (List.take_sublist _ _) (pairwise_sortDesc _ _)
  · exact List.length_take_le _ _
  · intro h
    have hfil : convs.filter
        (fun c => c.project_id == p && clears dist q (1 - th) c) = [] := by
      rw [List.filter_eq_nil_iff]
      intro c hc
      by_cases hproj : c.project_id = p
      · simp [hproj, h c hc hproj]
      · simp [hproj]
    rw [findSimilarConversations, hfil]
    simp [sortDesc]

/-- Witness for `findSimilarConversations_spec`: with threshold 1 nothing
clears the cutoff over `convsEx`, so the result is the empty list. -/
theorem findSimilarConversations_spec_witness :
    findSimilarConversations distEx convsEx 1 [(0 : Rat)] 5 (1 : Rat) = [] :=
  (findSimilarConversations_spec distEx convsEx 1 [(0 : Rat)] 5 (1 : Rat)).2.2.2
    (by
      intro c hc
      fin_cases hc <;> norm_num [clears, distEx, convsEx])

lemma filter_and_split {α : Type} (f g : α → Bool) (l : List α) :
    l.filter (fun a => f a && g a) = (l.filter f).filter g := by
  induction l with
  | nil => rfl
  | cons x xs ih => cases hf : f x <;> cases hg : g x <;> simp [hf, hg, ih]

/-- Claim C8: `findSimilarConversations` takes no caller identity and reads
only the conversations of the requested project: whenever two stored states
agree on the rows whose `project_id` is the requested one, the results are
identical for the same arguments — in particular, two different callers with
the same arguments over the same state always get the same rows, and no
user-based filter beyond `projectId` exists. -/
theorem findSimilarConversations_no_user_dependence
    (dist : List Rat → List Rat → Rat) (l1 l2 : List Conv) (p : Nat)
    (q : List Rat) (lim : Nat) (th : Rat)
    (h : l1.filter (fun c => c.project_id == p) =
         l2.filter (fun c => c.project_id == p)) :
    findSimilarConversations dist l1 p q lim th =
      findSimilarConversations dist l2 p q lim th := by
  have h1 : l1.filter (fun c => c.project_id == p && clears dist q (1 - th) c) =
      l2.filter (fun c => c.project_id == p && clears dist q (1 - th) c) := by
    rw [filter_and_split, filter_and_split, h]
  simp only [findSimilarConversations]
  rw [h1]

/-- Witness for `findSimilarConversations_no_user_dependence`: `convsEx` and
`convsEx2` differ only in project 2 rows, so the project 1 search result is
unchanged. -/
theorem findSimilarConversations_no_user_dependence_witness :
    findSimilarConversations distEx convsEx 1 [(0 : Rat)] 5 ((1 : Rat)/2) =
      findSimilarConversations distEx convsEx2 1 [(0 : Rat)] 5 ((1 : Rat)/2) :=
  findSimilarConversations_no_user_dependence distEx convsEx convsEx2 1
    [(0 : Rat)] 5 ((1 : Rat)/2) (by rfl)

end SimSearch
